import Mathlib

/-!
The C adapter of the SOLNP optimiser (`src/solnp_c_api.cpp`) and its demo
=========================================================================

A shallow embedding of `solnp_solve`, `cpp_objective_wrapper`,
`cpp_constraint_wrapper` (file `src/solnp_c_api.cpp`) and of
`rosenbrock_functor` (file `cpp_test/main.cpp`).

Modelling conventions.

* `double` values are only copied by the adapter, so the adapter is embedded
  over an arbitrary scalar type `α`.
* `int` and `long` sizes are unbounded integers: every size in the adapter is
  the length of an array that exists in memory.
* Callbacks are C function pointers: `none` is `nullptr`, `some f` is the
  address `f`, and a table `Callbacks` gives the behaviour of each address.
* The three `static` variables of the adapter are the record `Globals`, threaded
  explicitly through every operation.
* The engine `cppsolnp::solnp` lives in the library header `solnp.hpp`, which the
  adapter only includes; it is a parameter of `solnp_solve`.  An engine can reach
  the callbacks only through the evaluator it is handed, so it is an interaction
  tree `Engine` whose only effect is the call of the evaluator.
* Memory exhaustion (`std::bad_alloc`) is not modelled.
-/

namespace Solnp

/-! ## Outcomes of a C++ computation -/

/-- How a C++ call ends: it returns a value, a C++ exception leaves it, or its
behaviour is undefined (call through a null pointer, access outside an array,
read of an uninitialised element). -/
inductive Outcome (β : Type) where
  | returned (b : β)
  | raised
  | undefined
deriving DecidableEq, Repr

/-! ## The static variables and the callbacks -/

/-- The file-level statics `g_objective_func`, `g_constraint_func` and
`g_constraint_count` (lines 8-10). -/
structure Globals where
  g_objective_func : Option Nat
  g_constraint_func : Option Nat
  g_constraint_count : Int
deriving DecidableEq, Repr

/-- One call of a user callback made by a wrapper, with the address called. -/
inductive Invocation where
  | objective (f : Nat)
  | constraint (f : Nat)
deriving DecidableEq, Repr

/-- Whether the invocation is one of a constraint callback. -/
def Invocation.is_constraint : Invocation → Bool
  | .objective _ => false
  | .constraint _ => true

/-- The state the adapter runs in: the statics, and a ghost trace of the
callback invocations made by the wrappers for the running engine so far (what a
callback does inside its body is part of the callback). -/
structure World where
  slots : Globals
  log : List Invocation
deriving DecidableEq, Repr

/-- The behaviour of the user callbacks, by address.

`objective f parameters param_count` is the value the callback at `f` writes to
`*result`; `constraint f parameters param_count constraint_count` is the list of
values the callback at `f` writes to `constraints[0]`, `constraints[1]`, ...

The second component is the callback's effect on the statics.  They are
`static`, so foreign code can change them only by calling `solnp_solve`, which
overwrites all three before it reads any: `none` says the callback made no such
call, `some g` that it did and that `g` is what the last such call left. -/
structure Callbacks (α : Type) where
  objective : Nat → List α → Int → α × Option Globals
  constraint : Nat → List α → Int → Int → List α × Option Globals

/-- The state after a callback at the address of `inv` returned with effect
`eff`. -/
def World.after (w : World) (inv : Invocation) (eff : Option Globals) : World :=
  { slots := eff.getD w.slots, log := w.log ++ [inv] }

/-! ## Arrays -/

/-- The loop `for (i = 0; i < n; i++) dst[i] = src(i)` over a whole vector. -/
def copy_array {α : Type} : List α → List α
  | [] => []
  | x :: xs => x :: copy_array xs

/-- A freshly allocated `new double[n]`: `n` uninitialised elements. -/
def new_array (α : Type) (n : Nat) : List (Option α) :=
  List.replicate n none

/-- Writes `vs` to `arr[i]`, `arr[i+1]`, ...; `none` when a write falls outside
the array. -/
def write_at {α : Type} : List (Option α) → Nat → List α → Option (List (Option α))
  | arr, _, [] => some arr
  | arr, i, v :: vs =>
    if i < arr.length then write_at (arr.set i (some v)) (i + 1) vs else none

/-- Reads `arr[0]`, ..., `arr[n-1]`; `none` when a read falls outside the array
or meets an uninitialised element. -/
def read_first {α : Type} : List (Option α) → Nat → Option (List α)
  | _, 0 => some []
  | [], _ + 1 => none
  | none :: _, _ + 1 => none
  | some v :: arr, n + 1 => (read_first arr n).map (v :: ·)

/-- The loop `for (i = start; i < start + k; i++) row(i) = ...`, where `row i`
is `none` when iteration `i` reads outside an input array. -/
def fill_rows {β : Type} (row : Nat → Option β) : Nat → Nat → Option (List β)
  | _, 0 => some []
  | i, k + 1 =>
    match row i with
    | none => none
    | some r => (fill_rows row (i + 1) k).map (r :: ·)

/-! ## The wrappers (lines 13-58) -/

/-- `cpp_objective_wrapper` (lines 13-27). -/
def cpp_objective_wrapper {α : Type} (cb : Callbacks α) (params : List α) (w : World) :
    Outcome (List α) × World :=
  let param_count : Int := params.length
  let param_array := copy_array params
  match w.slots.g_objective_func with
  | none => (.undefined, w)
  | some f =>
    let r := cb.objective f param_array param_count
    (.returned [r.1], w.after (.objective f) r.2)

/-- `cpp_constraint_wrapper` (lines 30-58).  The statics are read again at
every use, as in the source: the guard and the allocation read them on entry,
the constraint call after the objective callback has returned, the size of the
result after the constraint callback has returned. -/
def cpp_constraint_wrapper {α : Type} (cb : Callbacks α) (params : List α) (w : World) :
    Outcome (List α) × World :=
  if w.slots.g_constraint_func = none ∨ w.slots.g_constraint_count = 0 then
    (.returned [], w)
  else
    let param_count : Int := params.length
    let param_array := copy_array params
    if w.slots.g_constraint_count + 1 < 0 then (.raised, w)
    else
      let constraint_array := new_array α (w.slots.g_constraint_count + 1).toNat
      match w.slots.g_objective_func with
      | none => (.undefined, w)
      | some f =>
        let r := cb.objective f param_array param_count
        let w1 := w.after (.objective f) r.2
        match write_at constraint_array 0 [r.1] with
        | none => (.undefined, w1)
        | some arr1 =>
          match w1.slots.g_constraint_func with
          | none => (.undefined, w1)
          | some c =>
            let cs := cb.constraint c param_array param_count w1.slots.g_constraint_count
            let w2 := w1.after (.constraint c) cs.2
            match write_at arr1 1 cs.1 with
            | none => (.undefined, w2)
            | some arr2 =>
              if w2.slots.g_constraint_count + 1 < 0 then (.undefined, w2)
              else
                match read_first arr2 (w2.slots.g_constraint_count + 1).toNat with
                | none => (.undefined, w2)
                | some result => (.returned result, w2)

/-! ## The engine -/

/-- The type `cppsolnp::SolveResult` as far as the adapter reads it (its
declaration is in `solnp.hpp`; the fourth constructor argument, a matrix, is
never read by the adapter). -/
structure SolveResult (α : Type) where
  solve_value : α
  optimum : List α
  converged : Bool
deriving DecidableEq, Repr

/-- A run of the engine `cppsolnp::solnp(functor, params)` seen from the
adapter: it returns a result, throws, or calls the functor at a point and goes
on from what the call gave (`some v` for a returned vector, `none` for an
exception it caught). -/
inductive Engine (α : Type) (ρ : Type) where
  | done (r : ρ)
  | fail
  | call (p : List α) (k : Option (List α) → Engine α ρ)

/-- Runs an engine against an evaluator in a given state.  Undefined behaviour
in the evaluator ends the run. -/
def Engine.run {α ρ : Type} (ev : List α → World → Outcome (List α) × World) :
    Engine α ρ → World → Outcome ρ × World
  | .done r, w => (.returned r, w)
  | .fail, w => (.raised, w)
  | .call p k, w =>
    match ev p w with
    | (.returned v, w1) => Engine.run ev (k (some v)) w1
    | (.raised, w1) => Engine.run ev (k none) w1
    | (.undefined, w1) => (.undefined, w1)

/-! ## `solnp_solve` (lines 62-123) -/

/-- A `dlib::matrix<double>`: its dimensions and its rows. -/
structure DlibMatrix (α : Type) where
  nr : Nat
  nc : Nat
  rows : List (List α)
deriving DecidableEq, Repr

/-- The struct `SolveResultC` of `solnp_c_api.h`. -/
structure SolveResultC (α : Type) where
  solve_value : α
  optimum : List α
  optimum_length : Int
  converged : Int
deriving DecidableEq, Repr

/-- The arguments of `solnp_solve`, in the order of the header.  A non-null
array argument is the list of elements that can be read through it. -/
structure SolveArgs (α : Type) where
  objective_func : Option Nat
  constraint_func : Option Nat
  initial_parameters : List α
  param_count : Int
  parameter_bounds : Option (List α)
  constraint_values : Option (List α)
  constraint_count : Int
  rho : α
  max_major_iterations : Int
  max_minor_iterations : Int
  delta : α
  tolerance : α

/-- Lines 78-80: the callbacks and the count are stored in the statics. -/
def store_callbacks {α : Type} (a : SolveArgs α) (w : World) : World :=
  { w with slots :=
      { g_objective_func := a.objective_func
        g_constraint_func := a.constraint_func
        g_constraint_count := a.constraint_count } }

/-- Lines 83-96: the parameter matrix.  `none` is undefined behaviour: a
negative `param_count`, or a read outside an input array. -/
def build_params {α : Type} (a : SolveArgs α) : Option (DlibMatrix α) :=
  if a.param_count < 0 then none
  else
    let n := a.param_count.toNat
    match a.parameter_bounds with
    | some b =>
      (fill_rows (fun i =>
          match a.initial_parameters[i]?, b[i]?, b[i + n]? with
          | some x, some lo, some hi => some [x, lo, hi]
          | _, _, _ => none) 0 n).map (fun rows => { nr := n, nc := 3, rows := rows })
    | none =>
      (fill_rows (fun i =>
          match a.initial_parameters[i]? with
          | some x => some [x]
          | none => none) 0 n).map (fun rows => { nr := n, nc := 1, rows := rows })

/-- Lines 100-106: the functor handed to the engine. -/
def handed_evaluator {α : Type} (cb : Callbacks α) (a : SolveArgs α) :
    List α → World → Outcome (List α) × World :=
  if a.constraint_count > 0 then cpp_constraint_wrapper cb else cpp_objective_wrapper cb

/-- Lines 109-117: the result structure returned to the C caller. -/
def to_c_result {α : Type} (result : SolveResult α) : SolveResultC α :=
  { solve_value := result.solve_value
    optimum_length := result.optimum.length
    optimum := copy_array result.optimum
    converged := if result.converged then 1 else 0 }

/-- `solnp_solve` (lines 62-123), for an engine `solnp`.  The value is `some c`
for a returned structure and `none` for `nullptr`. -/
def solnp_solve {α : Type} (cb : Callbacks α)
    (solnp : DlibMatrix α → Engine α (SolveResult α)) (a : SolveArgs α) (w : World) :
    Outcome (Option (SolveResultC α)) × World :=
  let w1 := store_callbacks a w
  match build_params a with
  | none => (.undefined, w1)
  | some params =>
    match (solnp params).run (handed_evaluator cb a) w1 with
    | (.returned result, w2) => (.returned (some (to_c_result result)), w2)
    | (.raised, w2) => (.returned none, w2)
    | (.undefined, w2) => (.undefined, w2)

/-! ## The demo objective (`cpp_test/main.cpp`, lines 4-14) -/

/-- `rosenbrock_functor::operator()`; the argument `p` of the template is read
only through `p(0)` and `p(1)`, so it is the function `i ↦ p(i)`.  The value is
the 1 x 1 matrix holding `f`. -/
def rosenbrock_functor {α : Type} [CommRing α] (p : Nat → α) : List α :=
  let a : α := 1
  let b : α := 100
  let f := (a - p 0) * (a - p 0) + b * (p 1 - p 0 * p 0) * (p 1 - p 0 * p 0)
  [f]

/-! ## Statements the adapter is compared with -/

/-- The vector the evaluator handed to the engine is to return at `p`, from the
arguments of the call alone: the objective value alone without constraints, an
empty vector when constraints are announced and no constraint callback is
given, the objective value followed by the constraint values otherwise. -/
def expected_evaluation {α : Type} (cb : Callbacks α) (a : SolveArgs α) (f : Nat)
    (p : List α) : List α :=
  if a.constraint_count > 0 then
    match a.constraint_func with
    | none => []
    | some c =>
      (cb.objective f p p.length).1 :: (cb.constraint c p p.length a.constraint_count).1
  else [(cb.objective f p p.length).1]

/-- The evaluation of `p` with the callbacks and the count of the call `a`
itself: the handed evaluator in the state `solnp_solve` sets up on entry. -/
def own_evaluation {α : Type} (cb : Callbacks α) (a : SolveArgs α) (p : List α) :
    Outcome (List α) :=
  (handed_evaluator cb a p
    (store_callbacks a { slots := ⟨none, none, 0⟩, log := [] })).1

/-- Runs an engine against an evaluator that is a function of the point
alone. -/
def Engine.run_pure {α ρ : Type} (ev : List α → Outcome (List α)) : Engine α ρ → Outcome ρ
  | .done r => .returned r
  | .fail => .raised
  | .call p k =>
    match ev p with
    | .returned v => Engine.run_pure ev (k (some v))
    | .raised => Engine.run_pure ev (k none)
    | .undefined => .undefined

/-! ## The validation of the engine -/

/-- Modelled from the spec: the check of the invariant `lower ≤ upper` of section
3 of the specification, made by the engine (`solnp.hpp`).  It says whether some
row `(value, lower, upper)` of a three-column parameter matrix has its lower
bound above its upper bound. -/
def lower_above_upper {α : Type} [LT α] [DecidableRel (fun x y : α => x < y)]
    (P : DlibMatrix α) : Bool :=
  P.rows.any (fun r =>
    match r with
    | [_, lo, hi] => decide (hi < lo)
    | _ => false)

/-- Column 0 of the parameter matrix: the starting point. -/
def initial_point {α : Type} (P : DlibMatrix α) : List α :=
  P.rows.filterMap List.head?

/-- Modelled from the spec: the start of the engine `cppsolnp::solnp`, whose
file `solnp.hpp` is not among the sources.  Section 7 of the specification:
invalid input (lower > upper, mismatched constraint/evaluator arity) is
rejected, the solve never starts, and the rejection is a failure; bounds are
rejected before any evaluator call; a failure of the evaluator at the initial
point is fatal.  Section 3: an evaluation result has `1 + m` elements, element
0 being the objective value, so a result without any element has a mismatched
arity for every `m`.  The arity of a functor is visible only in what it
returns, so that check is at the first evaluation.  What the engine does after
a valid start is the parameter `iterate`. -/
def solnp_engine {α : Type} [LT α] [DecidableRel (fun x y : α => x < y)]
    (iterate : DlibMatrix α → List α → Engine α (SolveResult α))
    (P : DlibMatrix α) : Engine α (SolveResult α) :=
  if lower_above_upper P then .fail
  else
    .call (initial_point P) (fun r =>
      match r with
      | none => .fail
      | some [] => .fail
      | some (v :: vs) => iterate P (v :: vs))

/-! ## Concrete callbacks, calls and engines -/

/-- A table of callbacks over the integers.  Address 1: the objective
`p ↦ sum of p`.  Address 2: the objective `p ↦ 20`.  Address 3: the objective
`p ↦ 10` whose body calls `solnp_solve` with the objective at address 2 and no
constraints, which leaves address 2 in the statics.  Address 7: the constraint
callback writing `sum of p + 1`, ..., `sum of p + constraint_count`. -/
def demo_callbacks : Callbacks ℤ where
  objective := fun f p _ =>
    if f = 2 then (20, none)
    else if f = 3 then (10, some ⟨some 2, none, 0⟩)
    else (p.sum, none)
  constraint := fun _ p _ m =>
    ((List.range m.toNat).map (fun j => p.sum + (j : ℤ) + 1), none)

/-- An initial state: nothing stored, nothing called. -/
def world0 : World := { slots := ⟨none, none, 0⟩, log := [] }

/-- A call with two parameters, bounds, and two constraints given by the
callback at address 7. -/
def args_constrained : SolveArgs ℤ where
  objective_func := some 1
  constraint_func := some 7
  initial_parameters := [3, 4]
  param_count := 2
  parameter_bounds := some [0, 1, 10, 11]
  constraint_values := some [0, 0]
  constraint_count := 2
  rho := 1
  max_major_iterations := 10
  max_minor_iterations := 10
  delta := 1
  tolerance := 1

/-- The call `args_constrained` with no constraint callback. -/
def args_null_constraint : SolveArgs ℤ :=
  { args_constrained with constraint_func := none }

/-- The call `args_constrained` with a constraint count of 0. -/
def args_empty_spec : SolveArgs ℤ :=
  { args_constrained with constraint_count := 0 }

/-- The call `args_constrained` with the bounds of parameter 1 swapped:
lower bound 11, upper bound 1. -/
def args_bad_bounds : SolveArgs ℤ :=
  { args_constrained with parameter_bounds := some [0, 11, 10, 1] }

/-- An unconstrained, unbounded call whose objective, at address 3, calls
`solnp_solve` itself. -/
def args_outer : SolveArgs ℤ where
  objective_func := some 3
  constraint_func := none
  initial_parameters := [0]
  param_count := 1
  parameter_bounds := none
  constraint_values := none
  constraint_count := 0
  rho := 1
  max_major_iterations := 10
  max_minor_iterations := 10
  delta := 1
  tolerance := 1

/-- The call made from inside the objective at address 3. -/
def args_inner : SolveArgs ℤ :=
  { args_outer with objective_func := some 2 }

/-- An engine that evaluates the starting point once and reports the objective
value there, as converged. -/
def probe_once (P : DlibMatrix ℤ) : Engine ℤ (SolveResult ℤ) :=
  .call (initial_point P) (fun r =>
    match r with
    | some (v :: _) => .done { solve_value := v, optimum := initial_point P, converged := true }
    | _ => .fail)

/-- An engine that evaluates the starting point twice and reports the two
objective values it saw as its optimum. -/
def probe_twice (P : DlibMatrix ℤ) : Engine ℤ (SolveResult ℤ) :=
  .call (initial_point P) (fun r1 =>
    .call (initial_point P) (fun r2 =>
      .done { solve_value := 0, optimum := (r1.getD []).take 1 ++ (r2.getD []).take 1,
              converged := false }))

/-! ## Lemmas on the array loops -/

theorem copy_array_eq {α : Type} (xs : List α) : copy_array xs = xs := by
  induction xs with
  | nil => rfl
  | cons x xs ih => simp [copy_array, ih]

theorem fill_rows_isSome {β : Type} (row : Nat → Option β) (k : Nat) :
    ∀ i, (∀ j, j < k → (row (i + j)).isSome) → (fill_rows row i k).isSome := by
  induction k with
  | zero => intro i _; rfl
  | succ k ih =>
    intro i h
    have h0 := h 0 (Nat.succ_pos k)
    have hk := ih (i + 1) (fun j hj => by
      have := h (j + 1) (Nat.succ_lt_succ hj)
      rwa [show i + 1 + j = i + (j + 1) by omega])
    simp only [Nat.add_zero] at h0
    obtain ⟨r, hr⟩ := Option.isSome_iff_exists.mp h0
    obtain ⟨rs, hrs⟩ := Option.isSome_iff_exists.mp hk
    simp [fill_rows, hr, hrs]

theorem fill_rows_get {β : Type} (row : Nat → Option β) (k : Nat) :
    ∀ i rows, fill_rows row i k = some rows →
      rows.length = k ∧ ∀ j, j < k → rows[j]? = row (i + j) := by
  induction k with
  | zero =>
    intro i rows h
    simp only [fill_rows, Option.some.injEq] at h
    subst h
    exact ⟨rfl, fun j hj => absurd hj (Nat.not_lt_zero j)⟩
  | succ k ih =>
    intro i rows h
    unfold fill_rows at h
    cases hr : row i with
    | none => simp [hr] at h
    | some r =>
      simp only [hr] at h
      cases hrs : fill_rows row (i + 1) k with
      | none => simp [hrs] at h
      | some rs =>
        simp only [hrs, Option.map_some', Option.some.injEq] at h
        subst h
        obtain ⟨hl, hg⟩ := ih (i + 1) rs hrs
        refine ⟨by simp [hl], ?_⟩
        intro j hj
        cases j with
        | zero => simp [hr]
        | succ j =>
          have := hg j (Nat.lt_of_succ_lt_succ hj)
          simp only [List.getElem?_cons_succ, this]
          congr 1
          omega

theorem write_at_fresh {α : Type} (vs : List α) :
    ∀ (pre : List (Option α)) (k : Nat),
      write_at (pre ++ List.replicate (vs.length + k) none) pre.length vs =
        some (pre ++ vs.map some ++ List.replicate k none) := by
  induction vs with
  | nil => intro pre k; simp [write_at]
  | cons v vs ih =>
    intro pre k
    have hlt : pre.length < (pre ++ List.replicate (vs.length + 1 + k) none).length := by
      simp only [List.length_append, List.length_replicate]
      omega
    have hset : (pre ++ List.replicate (vs.length + 1 + k) none).set pre.length (some v) =
        (pre ++ [some v]) ++ List.replicate (vs.length + k) none := by
      rw [show vs.length + 1 + k = (vs.length + k) + 1 by omega, List.replicate_succ]
      simp [List.set_append_right]
    have := ih (pre ++ [some v]) k
    simp only [List.length_append, List.length_singleton] at this
    simp only [write_at, List.length_cons, hlt, if_true, hset, this]
    simp

theorem read_first_written {α : Type} (vs : List α) :
    ∀ rest : List (Option α), read_first (vs.map some ++ rest) vs.length = some vs := by
  induction vs with
  | nil => intro rest; simp [read_first]
  | cons v vs ih =>
    intro rest
    simp [read_first, ih]

/-! ## The wrappers -/

theorem cpp_objective_wrapper_eq {α : Type} (cb : Callbacks α) (p : List α) (w : World)
    (f : Nat) (hf : w.slots.g_objective_func = some f) :
    cpp_objective_wrapper cb p w =
      (.returned [(cb.objective f p p.length).1],
        w.after (.objective f) (cb.objective f p p.length).2) := by
  simp [cpp_objective_wrapper, hf, copy_array_eq]

theorem cpp_constraint_wrapper_null {α : Type} (cb : Callbacks α) (p : List α) (w : World)
    (h : w.slots.g_constraint_func = none) :
    cpp_constraint_wrapper cb p w = (.returned [], w) := by
  simp [cpp_constraint_wrapper, h]

theorem constraint_array_roundtrip {α : Type} (v : α) (cs : List α) :
    ∃ arr1 arr2, write_at (new_array α (cs.length + 1)) 0 [v] = some arr1 ∧
      write_at arr1 1 cs = some arr2 ∧ read_first arr2 (cs.length + 1) = some (v :: cs) := by
  have h1 := write_at_fresh [v] ([] : List (Option α)) cs.length
  have h2 := write_at_fresh cs [some v] 0
  have h3 := read_first_written (v :: cs) ([] : List (Option α))
  simp only [List.length_singleton, List.nil_append, List.length_nil, List.map_cons,
    List.map_nil, Nat.add_comm 1 cs.length] at h1
  simp only [List.length_singleton, Nat.add_zero, List.replicate_zero, List.append_nil] at h2
  simp only [List.length_cons, List.map_cons, List.append_nil] at h3
  exact ⟨[some v] ++ List.replicate cs.length none, [some v] ++ List.map some cs, h1, h2,
    by simpa using h3⟩

theorem cpp_constraint_wrapper_eq {α : Type} (cb : Callbacks α) (p : List α) (w : World)
    (f c : Nat) (m : ℤ) (hf : w.slots.g_objective_func = some f)
    (hc : w.slots.g_constraint_func = some c) (hm : w.slots.g_constraint_count = m)
    (hpos : 0 < m) (h1 : (cb.objective f p p.length).2 = none)
    (h2 : (cb.constraint c p p.length m).2 = none)
    (hlen : ((cb.constraint c p p.length m).1.length : ℤ) = m) :
    cpp_constraint_wrapper cb p w =
      (.returned ((cb.objective f p p.length).1 :: (cb.constraint c p p.length m).1),
        { w with log := w.log ++ [.objective f, .constraint c] }) := by
  obtain ⟨arr1, arr2, ha1, ha2, ha3⟩ :=
    constraint_array_roundtrip (cb.objective f p p.length).1 (cb.constraint c p p.length m).1
  have hsize : (m + 1).toNat = (cb.constraint c p p.length m).1.length + 1 := by omega
  have hne : ¬ m = 0 := by omega
  have hnn : ¬ m + 1 < 0 := by omega
  simp only [cpp_constraint_wrapper, hc, hm, hne, hnn, hf, copy_array_eq, World.after, h1, h2,
    Option.getD_none, hsize, ha1, ha2, ha3]
  simp

/-! ## Runs against the objective wrapper -/

theorem run_objective_related {α ρ : Type} (cb : Callbacks α) (E : Engine α ρ) :
    ∀ w w2 : World, w.slots.g_objective_func = w2.slots.g_objective_func → w.log = w2.log →
      (E.run (cpp_objective_wrapper cb) w).1 = (E.run (cpp_objective_wrapper cb) w2).1 ∧
      (E.run (cpp_objective_wrapper cb) w).2.log =
        (E.run (cpp_objective_wrapper cb) w2).2.log := by
  induction E with
  | done r => intro w w2 _ hl; exact ⟨rfl, hl⟩
  | fail => intro w w2 _ hl; exact ⟨rfl, hl⟩
  | call p k ih =>
    intro w w2 hs hl
    cases hf : w.slots.g_objective_func with
    | none =>
      have hf2 : w2.slots.g_objective_func = none := by rw [← hs]; exact hf
      simp [Engine.run, cpp_objective_wrapper, hf, hf2, hl]
    | some f =>
      have hf2 : w2.slots.g_objective_func = some f := by rw [← hs]; exact hf
      simp only [Engine.run, cpp_objective_wrapper_eq cb p w f hf,
        cpp_objective_wrapper_eq cb p w2 f hf2]
      apply ih
      · cases he : (cb.objective f p p.length).2 with
        | none => simpa [World.after] using hs
        | some g => simp [World.after]
      · simp [World.after, hl]

theorem run_objective_log {α ρ : Type} (cb : Callbacks α) (E : Engine α ρ) :
    ∀ w : World, ∃ l, (E.run (cpp_objective_wrapper cb) w).2.log = w.log ++ l ∧
      ∀ i ∈ l, Invocation.is_constraint i = false := by
  induction E with
  | done r => intro w; exact ⟨[], by simp [Engine.run], by simp⟩
  | fail => intro w; exact ⟨[], by simp [Engine.run], by simp⟩
  | call p k ih =>
    intro w
    cases hf : w.slots.g_objective_func with
    | none => exact ⟨[], by simp [Engine.run, cpp_objective_wrapper, hf], by simp⟩
    | some f =>
      obtain ⟨l, hl, hc⟩ := ih (some [(cb.objective f p p.length).1])
        (w.after (.objective f) (cb.objective f p p.length).2)
      refine ⟨Invocation.objective f :: l, ?_, ?_⟩
      · simp only [Engine.run, cpp_objective_wrapper_eq cb p w f hf, hl]
        simp [World.after]
      · intro i hi
        rcases List.mem_cons.mp hi with h | h
        · subst h; rfl
        · exact hc i h

/-! ## The bounds in the parameter matrix -/

theorem build_params_bounds_row {α : Type} (a : SolveArgs α) (P : DlibMatrix α)
    (b : List α) (i : Nat) (lo hi : α) (hP : build_params a = some P)
    (hb : a.parameter_bounds = some b) (hi1 : (i : ℤ) < a.param_count)
    (hlo : b[i]? = some lo) (hhi : b[i + a.param_count.toNat]? = some hi) :
    ∃ x, [x, lo, hi] ∈ P.rows := by
  have hneg : ¬ a.param_count < 0 := by omega
  simp only [build_params, hneg, if_false, hb] at hP
  cases hrows : fill_rows (fun i =>
      match a.initial_parameters[i]?, b[i]?, b[i + a.param_count.toNat]? with
      | some x, some lo, some hi => some [x, lo, hi]
      | _, _, _ => none) 0 a.param_count.toNat with
  | none => simp [hrows] at hP
  | some rows =>
    simp only [hrows, Option.map_some', Option.some.injEq] at hP
    subst hP
    obtain ⟨_, hg⟩ := fill_rows_get _ _ 0 rows hrows
    have hlt : i < a.param_count.toNat := by omega
    have hrow := hg i hlt
    simp only [Nat.zero_add, hlo, hhi] at hrow
    cases hx : a.initial_parameters[i]? with
    | none =>
      simp only [hx] at hrow
      have hlen := (fill_rows_get _ _ 0 rows hrows).1
      have : i < rows.length := by omega
      rw [List.getElem?_eq_getElem this] at hrow
      exact absurd hrow (by simp)
    | some x =>
      simp only [hx] at hrow
      exact ⟨x, List.getElem?_mem hrow⟩

/-! ## Evaluations when the callbacks of the call do not re-enter -/

theorem handed_evaluator_own {α : Type} (cb : Callbacks α) (a : SolveArgs α)
    (hobj : ∀ f, a.objective_func = some f → ∀ p n, (cb.objective f p n).2 = none)
    (hcon : ∀ c, a.constraint_func = some c → ∀ p n m, (cb.constraint c p n m).2 = none)
    (p : List α) (w : World) (hw : w.slots = (store_callbacks a w).slots) :
    (handed_evaluator cb a p w).1 = own_evaluation cb a p ∧
    (handed_evaluator cb a p w).2.slots = w.slots := by
  obtain ⟨S, l⟩ := w
  simp only [store_callbacks] at hw
  subst hw
  simp only [own_evaluation, handed_evaluator, store_callbacks]
  by_cases hm : a.constraint_count > 0
  · simp only [hm, if_true]
    cases hf : a.objective_func with
    | none =>
      simp only [cpp_constraint_wrapper, hf]
      repeat' split
      all_goals simp
    | some f =>
      cases hc : a.constraint_func with
      | none => simp [cpp_constraint_wrapper, hc]
      | some c =>
        have h1 := hobj f hf
        have h2 := hcon c hc
        simp only [cpp_constraint_wrapper, hf, hc, World.after, h1, h2, Option.getD_none]
        repeat' split
        all_goals simp_all
  · simp only [hm, if_false]
    cases hf : a.objective_func with
    | none => simp [cpp_objective_wrapper, hf]
    | some f => simp [cpp_objective_wrapper, hf, World.after, hobj f hf]

theorem run_own {α ρ : Type} (cb : Callbacks α) (a : SolveArgs α)
    (hobj : ∀ f, a.objective_func = some f → ∀ p n, (cb.objective f p n).2 = none)
    (hcon : ∀ c, a.constraint_func = some c → ∀ p n m, (cb.constraint c p n m).2 = none)
    (E : Engine α ρ) :
    ∀ w : World, w.slots = (store_callbacks a w).slots →
      (E.run (handed_evaluator cb a) w).1 = E.run_pure (own_evaluation cb a) ∧
      (E.run (handed_evaluator cb a) w).2.slots = w.slots := by
  induction E with
  | done r => intro w _; exact ⟨rfl, rfl⟩
  | fail => intro w _; exact ⟨rfl, rfl⟩
  | call p k ih =>
    intro w hw
    obtain ⟨h1, h2⟩ := handed_evaluator_own cb a hobj hcon p w hw
    have hw2 : (handed_evaluator cb a p w).2.slots =
        (store_callbacks a (handed_evaluator cb a p w).2).slots := by
      rw [h2, hw]; rfl
    cases hout : handed_evaluator cb a p w with
    | mk o w1 =>
    rw [hout] at h1 h2 hw2
    simp only at h1 h2 hw2
    simp only [Engine.run, Engine.run_pure, hout, ← h1]
    cases o with
    | returned v =>
      obtain ⟨i1, i2⟩ := ih (some v) w1 hw2
      exact ⟨i1, i2.trans h2⟩
    | raised =>
      obtain ⟨i1, i2⟩ := ih none w1 hw2
      exact ⟨i1, i2.trans h2⟩
    | undefined => exact ⟨rfl, h2⟩

/-! ## The parameter matrix -/

/-- C2: for `param_count = n ≥ 0` and `initial_parameters` of length `n`, the
matrix passed to the engine has `n` rows whose column 0 is
`initial_parameters`; with `parameter_bounds` of length `2n` it has 3 columns
and row `i` is `(initial_parameters[i], parameter_bounds[i],
parameter_bounds[i + n])`; without `parameter_bounds` it has 1 column and row
`i` is `(initial_parameters[i])`. -/
theorem build_params_shape {α : Type} (a : SolveArgs α) (n : Nat)
    (hn : a.param_count = (n : ℤ)) (hlen : a.initial_parameters.length = n) :
    (∀ b, a.parameter_bounds = some b → b.length = 2 * n →
      ∃ P, build_params a = some P ∧ P.nr = n ∧ P.nc = 3 ∧ P.rows.length = n ∧
        P.rows.map List.head? = a.initial_parameters.map some ∧
        ∀ i, i < n → ∃ x lo hi, a.initial_parameters[i]? = some x ∧ b[i]? = some lo ∧
          b[i + n]? = some hi ∧ P.rows[i]? = some [x, lo, hi]) ∧
    (a.parameter_bounds = none →
      ∃ P, build_params a = some P ∧ P.nr = n ∧ P.nc = 1 ∧ P.rows.length = n ∧
        P.rows.map List.head? = a.initial_parameters.map some ∧
        ∀ i, i < n → ∃ x, a.initial_parameters[i]? = some x ∧ P.rows[i]? = some [x]) := by
  have hneg : ¬ a.param_count < 0 := by omega
  have htn : a.param_count.toNat = n := by omega
  constructor
  · intro b hb hbl
    have hrow : ∀ i, i < n → ∃ x lo hi, a.initial_parameters[i]? = some x ∧
        b[i]? = some lo ∧ b[i + n]? = some hi := by
      intro i hi
      have h1 : i < a.initial_parameters.length := by omega
      have h2 : i < b.length := by omega
      have h3 : i + n < b.length := by omega
      exact ⟨_, _, _, List.getElem?_eq_getElem h1, List.getElem?_eq_getElem h2,
        List.getElem?_eq_getElem h3⟩
    have hsome := fill_rows_isSome (fun i =>
        match a.initial_parameters[i]?, b[i]?, b[i + n]? with
        | some x, some lo, some hi => some [x, lo, hi]
        | _, _, _ => none) n 0 (by
      intro j hj
      obtain ⟨x, lo, hi, h1, h2, h3⟩ := hrow j hj
      simp [h1, h2, h3])
    obtain ⟨rows, hrows⟩ := Option.isSome_iff_exists.mp hsome
    obtain ⟨hl, hg⟩ := fill_rows_get _ n 0 rows hrows
    have hget : ∀ i, i < n → ∃ x lo hi, a.initial_parameters[i]? = some x ∧
        b[i]? = some lo ∧ b[i + n]? = some hi ∧ rows[i]? = some [x, lo, hi] := by
      intro i hi
      obtain ⟨x, lo, hi', h1, h2, h3⟩ := hrow i hi
      refine ⟨x, lo, hi', h1, h2, h3, ?_⟩
      rw [hg i hi]
      simp [h1, h2, h3]
    refine ⟨⟨n, 3, rows⟩, ?_, rfl, rfl, hl, ?_, hget⟩
    · simp [build_params, hneg, hb, htn, hrows]
    · apply List.ext_getElem?
      intro i
      by_cases hi : i < n
      · obtain ⟨x, lo, hi', h1, _, _, h4⟩ := hget i hi
        simp [List.getElem?_map, h1, h4]
      · have h1 : a.initial_parameters[i]? = none := List.getElem?_eq_none (by omega)
        have h2 : rows[i]? = none := List.getElem?_eq_none (by omega)
        simp [List.getElem?_map, h1, h2]
  · intro hb
    have hrow : ∀ i, i < n → ∃ x, a.initial_parameters[i]? = some x := by
      intro i hi
      have h1 : i < a.initial_parameters.length := by omega
      exact ⟨_, List.getElem?_eq_getElem h1⟩
    have hsome := fill_rows_isSome (fun i =>
        match a.initial_parameters[i]? with
        | some x => some [x]
        | none => none) n 0 (by
      intro j hj
      obtain ⟨x, h1⟩ := hrow j hj
      simp [h1])
    obtain ⟨rows, hrows⟩ := Option.isSome_iff_exists.mp hsome
    obtain ⟨hl, hg⟩ := fill_rows_get _ n 0 rows hrows
    have hget : ∀ i, i < n → ∃ x, a.initial_parameters[i]? = some x ∧
        rows[i]? = some [x] := by
      intro i hi
      obtain ⟨x, h1⟩ := hrow i hi
      refine ⟨x, h1, ?_⟩
      rw [hg i hi]
      simp [h1]
    refine ⟨⟨n, 1, rows⟩, ?_, rfl, rfl, hl, ?_, hget⟩
    · simp [build_params, hneg, hb, htn, hrows]
    · apply List.ext_getElem?
      intro i
      by_cases hi : i < n
      · obtain ⟨x, h1, h4⟩ := hget i hi
        simp [List.getElem?_map, h1, h4]
      · have h1 : a.initial_parameters[i]? = none := List.getElem?_eq_none (by omega)
        have h2 : rows[i]? = none := List.getElem?_eq_none (by omega)
        simp [List.getElem?_map, h1, h2]

/-- The statement of `build_params_shape` at the call `args_constrained`: two
parameters, four bound values. -/
theorem build_params_shape_witness :
    ∃ P, build_params args_constrained = some P ∧ P.nr = 2 ∧ P.nc = 3 ∧ P.rows.length = 2 ∧
      P.rows.map List.head? = args_constrained.initial_parameters.map some ∧
      ∀ i, i < 2 → ∃ x lo hi, args_constrained.initial_parameters[i]? = some x ∧
        ([0, 1, 10, 11] : List ℤ)[i]? = some lo ∧
        ([0, 1, 10, 11] : List ℤ)[i + 2]? = some hi ∧ P.rows[i]? = some [x, lo, hi] :=
  (build_params_shape args_constrained 2 rfl rfl).1 [0, 1, 10, 11] rfl rfl

/-! ## The result structure and the null sentinel -/

theorem solnp_solve_eq {α : Type} (cb : Callbacks α)
    (solnp : DlibMatrix α → Engine α (SolveResult α)) (a : SolveArgs α) (w : World)
    (P : DlibMatrix α) (hP : build_params a = some P) :
    solnp_solve cb solnp a w =
      match (solnp P).run (handed_evaluator cb a) (store_callbacks a w) with
      | (.returned result, w2) => (.returned (some (to_c_result result)), w2)
      | (.raised, w2) => (.returned none, w2)
      | (.undefined, w2) => (.undefined, w2) := by
  simp only [solnp_solve, hP]

theorem solnp_solve_outcome {α : Type} (cb : Callbacks α)
    (solnp : DlibMatrix α → Engine α (SolveResult α)) (a : SolveArgs α) (w : World)
    (P : DlibMatrix α) (hP : build_params a = some P) :
    (solnp_solve cb solnp a w).1 ≠ .raised ∧
    ((solnp_solve cb solnp a w).1 = .returned none ↔
      ((solnp P).run (handed_evaluator cb a) (store_callbacks a w)).1 = .raised) ∧
    (∀ r, ((solnp P).run (handed_evaluator cb a) (store_callbacks a w)).1 = .returned r →
      ∃ c, (solnp_solve cb solnp a w).1 = .returned (some c) ∧
        c.converged = (if r.converged = true then 1 else 0)) := by
  rw [solnp_solve_eq cb solnp a w P hP]
  generalize (solnp P).run (handed_evaluator cb a) (store_callbacks a w) = out
  obtain ⟨o, w2⟩ := out
  cases o with
  | returned r =>
    refine ⟨by simp, by simp, ?_⟩
    intro r2 h
    simp only [Outcome.returned.injEq] at h
    subst h
    exact ⟨to_c_result r, rfl, rfl⟩
  | raised => exact ⟨by simp, by simp, by simp⟩
  | undefined => exact ⟨by simp, by simp, by simp⟩

/-- C3: whenever the engine returns a result `r`, `solnp_solve` returns a
non-null structure `c` with `c.solve_value = r.solve_value`,
`c.optimum_length` the number of elements of `r.optimum`, `c.optimum[i] =
r.optimum(i)` for every index, and `c.converged` equal to 1 when `r.converged`
is true and to 0 otherwise. -/
theorem solnp_solve_result {α : Type} (cb : Callbacks α)
    (solnp : DlibMatrix α → Engine α (SolveResult α)) (a : SolveArgs α) (w : World)
    (P : DlibMatrix α) (r : SolveResult α) (hP : build_params a = some P)
    (hr : ((solnp P).run (handed_evaluator cb a) (store_callbacks a w)).1 = .returned r) :
    ∃ c, (solnp_solve cb solnp a w).1 = .returned (some c) ∧
      c.solve_value = r.solve_value ∧
      c.optimum_length = (r.optimum.length : ℤ) ∧
      (c.optimum.length : ℤ) = c.optimum_length ∧
      (∀ i : Nat, c.optimum[i]? = r.optimum[i]?) ∧
      c.converged = (if r.converged = true then 1 else 0) := by
  refine ⟨to_c_result r, ?_, rfl, rfl, ?_, ?_, rfl⟩
  · rw [solnp_solve_eq cb solnp a w P hP]
    generalize (solnp P).run (handed_evaluator cb a) (store_callbacks a w) = out at hr
    obtain ⟨o, w2⟩ := out
    simp only at hr
    subst hr
    rfl
  · simp [to_c_result, copy_array_eq]
  · intro i
    simp [to_c_result, copy_array_eq]

/-- The statement of `solnp_solve_result` at the call `args_constrained` with
the engine `probe_once`, which returns the objective value 7 at `(3, 4)`. -/
theorem solnp_solve_result_witness :
    ∃ c, (solnp_solve demo_callbacks probe_once args_constrained world0).1 =
        .returned (some c) ∧
      c.solve_value = 7 ∧ c.optimum_length = 2 ∧ (c.optimum.length : ℤ) = c.optimum_length ∧
      (∀ i : Nat, c.optimum[i]? = ([3, 4] : List ℤ)[i]?) ∧ c.converged = 1 :=
  solnp_solve_result demo_callbacks probe_once args_constrained world0
    ⟨2, 3, [[3, 0, 10], [4, 1, 11]]⟩ ⟨7, [3, 4], true⟩ (by decide) (by decide)

/-- C4: no exception leaves `solnp_solve`; it returns the null sentinel exactly
when the engine is invoked and the invocation, evaluator calls included, ends
by raising, and it returns a non-null structure whenever the engine returns a
result, converged or not. -/
theorem solnp_solve_null_iff_raised {α : Type} (cb : Callbacks α)
    (solnp : DlibMatrix α → Engine α (SolveResult α)) (a : SolveArgs α) (w : World) :
    (solnp_solve cb solnp a w).1 ≠ .raised ∧
    ((solnp_solve cb solnp a w).1 = .returned none ↔
      ∃ P, build_params a = some P ∧
        ((solnp P).run (handed_evaluator cb a) (store_callbacks a w)).1 = .raised) ∧
    (∀ P r, build_params a = some P →
      ((solnp P).run (handed_evaluator cb a) (store_callbacks a w)).1 = .returned r →
      ∃ c, (solnp_solve cb solnp a w).1 = .returned (some c) ∧
        c.converged = (if r.converged = true then 1 else 0)) := by
  cases hP : build_params a with
  | none => simp [solnp_solve, hP]
  | some P =>
    obtain ⟨k1, k2, k3⟩ := solnp_solve_outcome cb solnp a w P hP
    refine ⟨k1, ⟨fun h => ⟨P, rfl, k2.mp h⟩, ?_⟩, ?_⟩
    · rintro ⟨P2, hP2, h⟩
      simp only [Option.some.injEq] at hP2
      subst hP2
      exact k2.mpr h
    · intro P2 r hP2 h
      simp only [Option.some.injEq] at hP2
      subst hP2
      exact k3 r h

/-- The statement of `solnp_solve_null_iff_raised` at the call
`args_null_constraint` with the engine `probe_once`, which raises when its
evaluation yields no objective value: the call returns the null sentinel. -/
theorem solnp_solve_null_iff_raised_witness :
    (solnp_solve demo_callbacks probe_once args_null_constraint world0).1 = .returned none :=
  (solnp_solve_null_iff_raised demo_callbacks probe_once args_null_constraint world0).2.1.mpr
    ⟨⟨2, 3, [[3, 0, 10], [4, 1, 11]]⟩, by decide, by decide⟩

/-! ## The configuration -/

/-- C5, what the code does: the five configuration arguments of `solnp_solve`
are never read.  Replacing `rho`, `max_major_iterations`,
`max_minor_iterations`, `delta` and `tolerance` by any other values leaves the
engine invocation, the result and the final state unchanged. -/
theorem solnp_solve_ignores_config {α : Type} (cb : Callbacks α)
    (solnp : DlibMatrix α → Engine α (SolveResult α)) (a : SolveArgs α) (w : World)
    (rho delta tolerance : α) (max_major_iterations max_minor_iterations : ℤ) :
    solnp_solve cb solnp
      { a with rho := rho, max_major_iterations := max_major_iterations,
               max_minor_iterations := max_minor_iterations, delta := delta,
               tolerance := tolerance } w
      = solnp_solve cb solnp a w ∧
    handed_evaluator cb
      { a with rho := rho, max_major_iterations := max_major_iterations,
               max_minor_iterations := max_minor_iterations, delta := delta,
               tolerance := tolerance } = handed_evaluator cb a ∧
    build_params
      { a with rho := rho, max_major_iterations := max_major_iterations,
               max_minor_iterations := max_minor_iterations, delta := delta,
               tolerance := tolerance } = build_params a :=
  ⟨rfl, rfl, rfl⟩

/-! ## The demo objective -/

/-- C10: `rosenbrock_functor` returns the single value
`(1 - x)^2 + 100 * (y - x^2)^2` at the point `(x, y) = (p(0), p(1))`; over the
reals this value is nonnegative, it is 0 exactly at `(x, y) = (1, 1)`, and at
the start `(-2, -2)` of the demo it is 3609. -/
theorem rosenbrock_functor_minimum (p : Nat → ℝ) :
    rosenbrock_functor p = [(1 - p 0) ^ 2 + 100 * (p 1 - p 0 ^ 2) ^ 2] ∧
    0 ≤ (1 - p 0) ^ 2 + 100 * (p 1 - p 0 ^ 2) ^ 2 ∧
    (rosenbrock_functor p = [0] ↔ p 0 = 1 ∧ p 1 = 1) ∧
    rosenbrock_functor (fun _ => (-2 : ℝ)) = [3609] := by
  have hval : rosenbrock_functor p = [(1 - p 0) ^ 2 + 100 * (p 1 - p 0 ^ 2) ^ 2] := by
    simp only [rosenbrock_functor]
    congr 1
    ring
  refine ⟨hval, by positivity, ?_, ?_⟩
  · rw [hval]
    simp only [List.cons.injEq, and_true]
    constructor
    · intro h
      have h1 : (1 - p 0) ^ 2 = 0 := by
        nlinarith [sq_nonneg (1 - p 0), sq_nonneg (p 1 - p 0 ^ 2)]
      have h2 : (p 1 - p 0 ^ 2) ^ 2 = 0 := by
        nlinarith [sq_nonneg (1 - p 0), sq_nonneg (p 1 - p 0 ^ 2)]
      have hx : p 0 = 1 := by
        have := pow_eq_zero_iff (two_ne_zero) |>.mp h1
        linarith
      have hy : p 1 - p 0 ^ 2 = 0 := pow_eq_zero_iff (two_ne_zero) |>.mp h2
      refine ⟨hx, ?_⟩
      rw [hx] at hy
      linarith
    · rintro ⟨h0, h1⟩
      rw [h0, h1]
      norm_num
  · simp only [rosenbrock_functor]
    norm_num

/-! ## The evaluator handed to the engine -/

/-- C1, as the claim states it, fails: with two constraints announced and no
constraint callback, the evaluator handed to the engine returns the empty
vector at `(3, 4)`, not a vector of `1 + 2` elements. -/
theorem handed_evaluator_null_constraint_empty :
    (handed_evaluator demo_callbacks args_null_constraint [3, 4]
        (store_callbacks args_null_constraint world0)).1 = .returned [] ∧
    ¬ ∃ v : List ℤ,
      (handed_evaluator demo_callbacks args_null_constraint [3, 4]
        (store_callbacks args_null_constraint world0)).1 = .returned v ∧
      (v.length : ℤ) = 1 + args_null_constraint.constraint_count := by
  refine ⟨by decide, ?_⟩
  rintro ⟨v, hv, hl⟩
  have h0 : (handed_evaluator demo_callbacks args_null_constraint [3, 4]
        (store_callbacks args_null_constraint world0)).1 = .returned [] := by decide
  rw [h0] at hv
  simp only [Outcome.returned.injEq] at hv
  subst hv
  revert hl
  decide

/-- C1, amended: in the state `solnp_solve` sets up on entry, with a non-null
objective callback `f`, the evaluator handed to the engine returns at every
point `p` the vector `expected_evaluation`, calling the callbacks on the
coordinates of `p` in order with `param_count` the length of `p`:
the objective value alone when `m ≤ 0`; the empty vector, with no callback
invoked, when `m > 0` and the constraint callback is null; the objective value
followed by the values of the constraint callback when `m > 0` and the
constraint callback is non-null, writes `m` values and neither callback calls
`solnp_solve` during the evaluation.  Except in the null case the vector has
`1 + m` elements for `m ≥ 0`. -/
theorem handed_evaluator_returns {α : Type} (cb : Callbacks α) (a : SolveArgs α) (w : World)
    (p : List α) (f : Nat) (hf : a.objective_func = some f)
    (hc : ∀ c, 0 < a.constraint_count → a.constraint_func = some c →
      (cb.objective f p p.length).2 = none ∧
      (cb.constraint c p p.length a.constraint_count).2 = none ∧
      ((cb.constraint c p p.length a.constraint_count).1.length : ℤ) = a.constraint_count) :
    (handed_evaluator cb a p (store_callbacks a w)).1 =
      .returned (expected_evaluation cb a f p) ∧
    (expected_evaluation cb a f p).head? =
      (if 0 < a.constraint_count ∧ a.constraint_func = none then none
       else some (cb.objective f p p.length).1) ∧
    (0 ≤ a.constraint_count → (a.constraint_count = 0 ∨ a.constraint_func ≠ none) →
      ((expected_evaluation cb a f p).length : ℤ) = 1 + a.constraint_count) ∧
    (0 < a.constraint_count → a.constraint_func = none →
      (handed_evaluator cb a p (store_callbacks a w)).2 = store_callbacks a w) := by
  by_cases hm : a.constraint_count > 0
  · cases hcf : a.constraint_func with
    | none =>
      have hev : handed_evaluator cb a p (store_callbacks a w) =
          (.returned [], store_callbacks a w) := by
        simp only [handed_evaluator, hm, if_true]
        exact cpp_constraint_wrapper_null cb p _ hcf
      refine ⟨?_, ?_, ?_, ?_⟩
      · simp [hev, expected_evaluation, hm, hcf]
      · simp [expected_evaluation, hm, hcf]
      · intro _ h
        rcases h with h | h
        · omega
        · exact absurd rfl h
      · intro _ _
        rw [hev]
    | some c =>
      obtain ⟨h1, h2, h3⟩ := hc c hm hcf
      have hev := cpp_constraint_wrapper_eq cb p (store_callbacks a w) f c a.constraint_count
        hf hcf rfl hm h1 h2 h3
      refine ⟨?_, ?_, ?_, ?_⟩
      · simp [handed_evaluator, hm, hev, expected_evaluation, hcf]
      · simp [expected_evaluation, hm, hcf]
      · intro _ _
        simp only [expected_evaluation, hm, if_true, hcf, List.length_cons]
        push_cast
        omega
      · intro _ h
        simp at h
  · have hev := cpp_objective_wrapper_eq cb p (store_callbacks a w) f hf
    refine ⟨?_, ?_, ?_, ?_⟩
    · simp [handed_evaluator, hm, hev, expected_evaluation]
    · have : ¬ 0 < a.constraint_count := hm
      simp [expected_evaluation, hm, this]
    · intro h0 _
      have : a.constraint_count = 0 := by omega
      simp [expected_evaluation, this]
    · intro h
      exact absurd h hm

/-- The statement of `handed_evaluator_returns` at the call `args_constrained`
and the point `(3, 4)`: objective value 7, constraint values 8 and 9. -/
theorem handed_evaluator_returns_witness :
    (handed_evaluator demo_callbacks args_constrained [3, 4]
        (store_callbacks args_constrained world0)).1 = .returned [7, 8, 9] ∧
    expected_evaluation demo_callbacks args_constrained 1 [3, 4] = [7, 8, 9] :=
  ⟨(handed_evaluator_returns demo_callbacks args_constrained world0 [3, 4] 1 rfl
      (by intro c _ hc; cases hc; decide)).1, by decide⟩

/-! ## An empty constraint specification -/

/-- C7: a call with `constraint_count = 0` gives the same result as the call
with `constraint_func` and `constraint_values` null and everything else equal;
the engine receives the objective-only evaluator `cpp_objective_wrapper`, and
no constraint callback is invoked during the call. -/
theorem solnp_solve_empty_constraints {α : Type} (cb : Callbacks α)
    (solnp : DlibMatrix α → Engine α (SolveResult α)) (a : SolveArgs α) (w : World)
    (hm : a.constraint_count = 0) :
    (solnp_solve cb solnp a w).1 =
      (solnp_solve cb solnp { a with constraint_func := none, constraint_values := none } w).1 ∧
    handed_evaluator cb a = cpp_objective_wrapper cb ∧
    ∃ l, (solnp_solve cb solnp a w).2.log = w.log ++ l ∧
      ∀ i ∈ l, Invocation.is_constraint i = false := by
  have hev : handed_evaluator cb a = cpp_objective_wrapper cb := by
    simp [handed_evaluator, hm]
  have hev2 : handed_evaluator cb
      { a with constraint_func := none, constraint_values := none } =
      cpp_objective_wrapper cb := by
    simp [handed_evaluator, hm]
  have hbp : build_params { a with constraint_func := none, constraint_values := none } =
      build_params a := rfl
  refine ⟨?_, hev, ?_⟩
  · cases hP : build_params a with
    | none => simp [solnp_solve, hbp, hP]
    | some P =>
      rw [solnp_solve_eq cb solnp a w P hP, solnp_solve_eq cb solnp _ w P (hbp.trans hP),
        hev, hev2]
      have h := (run_objective_related cb (solnp P) (store_callbacks a w)
        (store_callbacks { a with constraint_func := none, constraint_values := none } w)
        rfl rfl).1
      revert h
      generalize (solnp P).run (cpp_objective_wrapper cb) (store_callbacks a w) = out
      generalize (solnp P).run (cpp_objective_wrapper cb)
        (store_callbacks { a with constraint_func := none, constraint_values := none } w) = out2
      obtain ⟨o, v⟩ := out
      obtain ⟨o2, v2⟩ := out2
      intro h
      simp only at h
      subst h
      cases o <;> rfl
  · cases hP : build_params a with
    | none => exact ⟨[], by simp [solnp_solve, hP, store_callbacks], by simp⟩
    | some P =>
      obtain ⟨l, hl, hc⟩ := run_objective_log cb (solnp P) (store_callbacks a w)
      refine ⟨l, ?_, hc⟩
      rw [solnp_solve_eq cb solnp a w P hP, hev]
      revert hl
      generalize (solnp P).run (cpp_objective_wrapper cb) (store_callbacks a w) = out
      obtain ⟨o, v⟩ := out
      intro hl
      cases o <;> simpa [store_callbacks] using hl

/-- The statement of `solnp_solve_empty_constraints` at the call
`args_empty_spec`, whose constraint callback is non-null: the result is the
one of the call without it, and only the objective was invoked. -/
theorem solnp_solve_empty_constraints_witness :
    (solnp_solve demo_callbacks probe_once args_empty_spec world0).1 =
      (solnp_solve demo_callbacks probe_once
        { args_empty_spec with constraint_func := none, constraint_values := none } world0).1 ∧
    (solnp_solve demo_callbacks probe_once args_empty_spec world0).2.log =
      [Invocation.objective 1] :=
  ⟨(solnp_solve_empty_constraints demo_callbacks probe_once args_empty_spec world0 rfl).1,
    by decide⟩

/-! ## Invalid input -/

/-- C8: with the engine validating its input as the specification says, a call
in which some parameter has its lower bound above its upper bound, or which
announces `constraint_count > 0` without a constraint callback, returns the
null sentinel; no objective or constraint callback is invoked during the call,
and the iterations of the engine are never reached (the outcome does not
depend on them). -/
theorem solnp_solve_rejects_invalid {α : Type} [LT α] [DecidableRel (fun x y : α => x < y)]
    (cb : Callbacks α) (iterate : DlibMatrix α → List α → Engine α (SolveResult α))
    (a : SolveArgs α) (w : World) (P : DlibMatrix α) (hP : build_params a = some P)
    (hbad : (∃ b i lo hi, a.parameter_bounds = some b ∧ ((i : Nat) : ℤ) < a.param_count ∧
        b[i]? = some lo ∧ b[i + a.param_count.toNat]? = some hi ∧ hi < lo) ∨
      (0 < a.constraint_count ∧ a.constraint_func = none)) :
    (solnp_solve cb (solnp_engine iterate) a w).1 = .returned none ∧
    (solnp_solve cb (solnp_engine iterate) a w).2.log = w.log ∧
    ∀ iterate2, solnp_solve cb (solnp_engine iterate2) a w =
      solnp_solve cb (solnp_engine iterate) a w := by
  have key : ∀ it : DlibMatrix α → List α → Engine α (SolveResult α),
      solnp_solve cb (solnp_engine it) a w = (.returned none, store_callbacks a w) := by
    intro it
    rw [solnp_solve_eq cb _ a w P hP]
    by_cases hv : lower_above_upper P = true
    · simp [solnp_engine, hv, Engine.run]
    · rcases hbad with ⟨b, i, lo, hi, hb, hi1, hlo, hhi, hlt⟩ | ⟨hm, hc⟩
      · exfalso
        apply hv
        obtain ⟨x, hx⟩ := build_params_bounds_row a P b i lo hi hP hb hi1 hlo hhi
        simp only [lower_above_upper, List.any_eq_true]
        exact ⟨[x, lo, hi], hx, by simpa using hlt⟩
      · have hev : handed_evaluator cb a (initial_point P) (store_callbacks a w) =
            (.returned [], store_callbacks a w) := by
          simp only [handed_evaluator, gt_iff_lt, hm, if_true]
          exact cpp_constraint_wrapper_null cb _ _ hc
        simp [solnp_engine, hv, Engine.run, hev]
  refine ⟨by rw [key], by rw [key]; rfl, ?_⟩
  intro it2
  rw [key, key]

/-- The statement of `solnp_solve_rejects_invalid` at the call
`args_bad_bounds`, whose parameter 1 has lower bound 11 and upper bound 1. -/
theorem solnp_solve_rejects_invalid_witness :
    (solnp_solve demo_callbacks (solnp_engine (fun P _ => probe_once P)) args_bad_bounds
        world0).1 = .returned none ∧
    (solnp_solve demo_callbacks (solnp_engine (fun P _ => probe_once P)) args_bad_bounds
        world0).2.log = [] :=
  have h := solnp_solve_rejects_invalid demo_callbacks (fun P _ => probe_once P)
    args_bad_bounds world0 ⟨2, 3, [[3, 0, 10], [4, 11, 1]]⟩ (by decide)
    (Or.inl ⟨[0, 11, 10, 1], 1, 11, 1, rfl, by decide, by decide, by decide, by decide⟩)
  ⟨h.1, h.2.1⟩

/-! ## The statics -/

/-- C6, as the claim states it, fails: in the call `args_outer` the objective
callback calls `solnp_solve` with another objective; the evaluation of the
point `(0)` made for `args_outer` before that call returns 10, the evaluation
of the same point made for `args_outer` after it returns 20, the value of the
other objective, and `solnp_solve` reports both.  The statics after the first
evaluation are the ones the nested call leaves. -/
theorem evaluation_changed_by_nested_solve :
    (handed_evaluator demo_callbacks args_outer [0]
        (store_callbacks args_outer world0)).1 = .returned [10] ∧
    (handed_evaluator demo_callbacks args_outer [0]
        (handed_evaluator demo_callbacks args_outer [0]
          (store_callbacks args_outer world0)).2).1 = .returned [20] ∧
    (handed_evaluator demo_callbacks args_outer [0]
        (store_callbacks args_outer world0)).2.slots =
      (solnp_solve demo_callbacks probe_once args_inner
        (store_callbacks args_outer world0)).2.slots ∧
    (solnp_solve demo_callbacks probe_twice args_outer world0).1 =
      .returned (some { solve_value := 0, optimum := [10, 20], optimum_length := 2,
                        converged := 0 }) := by
  decide

/-- C6, amended: every evaluation uses the callbacks and the count the statics
hold when it is made, which `solnp_solve` sets to its arguments on entry.  When
the callbacks of the call never call `solnp_solve`, every evaluation of the
solve is the evaluation with the arguments of the call: the run of the engine
is its run against the function `own_evaluation` of the point alone, and the
statics still hold the arguments of the call when it ends. -/
theorem solnp_solve_own_callbacks {α : Type} (cb : Callbacks α)
    (solnp : DlibMatrix α → Engine α (SolveResult α)) (a : SolveArgs α) (w : World)
    (P : DlibMatrix α)
    (hobj : ∀ f, a.objective_func = some f → ∀ p n, (cb.objective f p n).2 = none)
    (hcon : ∀ c, a.constraint_func = some c → ∀ p n m, (cb.constraint c p n m).2 = none) :
    ((solnp P).run (handed_evaluator cb a) (store_callbacks a w)).1 =
      (solnp P).run_pure (own_evaluation cb a) ∧
    ((solnp P).run (handed_evaluator cb a) (store_callbacks a w)).2.slots =
      (store_callbacks a w).slots ∧
    (∀ p w2, w2.slots = (store_callbacks a w).slots →
      (handed_evaluator cb a p w2).1 = own_evaluation cb a p) := by
  obtain ⟨h1, h2⟩ := run_own cb a hobj hcon (solnp P) (store_callbacks a w) rfl
  refine ⟨h1, h2, ?_⟩
  intro p w2 hw2
  exact (handed_evaluator_own cb a hobj hcon p w2 (by rw [hw2]; rfl)).1

/-- The statement of `solnp_solve_own_callbacks` at the call `args_constrained`
with the engine `probe_twice`: both evaluations of `(3, 4)` give the objective
value 7. -/
theorem solnp_solve_own_callbacks_witness :
    ((probe_twice ⟨2, 3, [[3, 0, 10], [4, 1, 11]]⟩).run
        (handed_evaluator demo_callbacks args_constrained)
        (store_callbacks args_constrained world0)).1 =
      .returned { solve_value := 0, optimum := [7, 7], converged := false } :=
  (solnp_solve_own_callbacks demo_callbacks probe_twice args_constrained world0
    ⟨2, 3, [[3, 0, 10], [4, 1, 11]]⟩
    (by intro f hf p n; cases hf; simp [demo_callbacks])
    (by intro c _ p n m; rfl)).1.trans (by decide)

end Solnp
